import Mathlib

/-!
Verification of the overhead-wire dip/tension calculator (`src/wire_dip_tension.py`,
`src/wire_db.py`) against its natural-language specification.

Embedding conventions:
* Python floats are modelled by exact rationals `ℚ`; the cubic-root selection of
  `np.roots` works over the reals `ℝ`.
* `raise ValueError` is modelled as `Except.error CalcError.invalidArgument`,
  a `TypeError` coming from comparing `None` with `0` as
  `Except.error CalcError.typeError`, and the `StopIteration` escaping from
  `next(r for r in roots if np.isreal(r) and r > 0)` as
  `Except.error CalcError.numericalDivergence`.
* `np.roots` returns the complex zeros of the given cubic in an unspecified
  order, so `calc_dip_tension_with_temperature` is modelled by the relation
  `CalcTemp` whose `ok` outcome carries an arbitrary positive real root of each
  cubic, and whose divergence outcomes require that no such root exists.
-/

inductive CalcError where
  | invalidArgument
  | typeError
  | numericalDivergence
deriving DecidableEq

/-- The `Wire` dataclass of `src/wire_db.py` (all numeric fields as exact rationals). -/
structure Wire where
  type : String
  name : String
  cross_section : ℚ
  diameter : ℚ
  weight : ℚ
  resistance : ℚ
  temp_coef : ℚ
  breaking_strength : ℚ
  safety_factor : ℚ
  elastic_modulus : ℚ
  thermal_expansion : ℚ
deriving DecidableEq

/-- `dip_calc` of `src/wire_dip_tension.py`. -/
def dip_calc (wire : Wire) (span tension : ℚ) : Except CalcError ℚ :=
  if wire.weight ≤ 0 ∨ span ≤ 0 ∨ tension ≤ 0 then .error .invalidArgument
  else .ok (wire.weight * span ^ 2 / (8 * tension))

/-- `tension_calc` of `src/wire_dip_tension.py`. -/
def tension_calc (wire : Wire) (span dip : ℚ) : Except CalcError ℚ :=
  if wire.weight ≤ 0 ∨ span ≤ 0 ∨ dip ≤ 0 then .error .invalidArgument
  else .ok (wire.weight * span ^ 2 / (8 * dip))

/-- `dip_tension_calc` of `src/wire_dip_tension.py`.  The Python guard
`wire.weight <= 0 or span <= 0 or dip <= 0 or tension <= 0` evaluates left to
right with short-circuiting; comparing an omitted (`None`) keyword argument
against `0` raises `TypeError`.  When the guard passes, both `dip` and
`tension` are known to be present, so the `if dip is not None` branch always
fires and the `elif tension is not None` / final `else: raise ValueError`
branches of the source are unreachable. -/
def dip_tension_calc (wire : Wire) (span : ℚ) (dip tension : Option ℚ) :
    Except CalcError ℚ :=
  if wire.weight ≤ 0 then .error .invalidArgument
  else if span ≤ 0 then .error .invalidArgument
  else
    match dip with
    | none => .error .typeError
    | some d =>
      if d ≤ 0 then .error .invalidArgument
      else
        match tension with
        | none => .error .typeError
        | some tn =>
          if tn ≤ 0 then .error .invalidArgument
          else .ok (wire.weight * span ^ 2 / (8 * d))

/-- `np.linspace a b n` in exact arithmetic: `n` evenly spaced samples from `a`
to `b`, endpoints included (for `n ≥ 2` the step is `(b - a)/(n - 1)`). -/
def linspace (a b : ℚ) (n : ℕ) : List ℚ :=
  (List.range n).map (fun i : ℕ => a + (b - a) * (i : ℚ) / ((n : ℚ) - 1))

/-- The parabola evaluated in the level branch of `catenary_calc`. -/
def levelY (wire : Wire) (span tension dip height1 xi : ℚ) : ℚ :=
  wire.weight / (2 * tension) * (xi - span / 2) ^ 2 + (height1 - dip)

/-- The apex abscissa `span_a` of the inclined branch of `catenary_calc`. -/
def apexOffset (wire : Wire) (span tension height1 h2 : ℚ) : ℚ :=
  span / 2 - tension * (h2 - height1) / (wire.weight * span)

/-- `catenary_calc` of `src/wire_dip_tension.py`: returns the sampled
`(x, y)` lists together with the apex abscissa. -/
def catenary_calc (wire : Wire) (span tension dip height1 : ℚ)
    (height2 : Option ℚ) : Except CalcError (List ℚ × List ℚ × ℚ) :=
  if wire.weight ≤ 0 ∨ span ≤ 0 ∨ tension ≤ 0 ∨ dip ≤ 0 then
    .error .invalidArgument
  else
    let x := linspace 0 span 100
    match height2 with
    | none =>
      let y := x.map (levelY wire span tension dip height1)
      .ok (x, y, span / 2)
    | some h2 =>
      let span_a := apexOffset wire span tension height1 h2
      let y_offset := height1 - wire.weight / (2 * tension) * span_a ^ 2
      let y := x.map (fun xi => wire.weight / (2 * tension) * (xi - span_a) ^ 2 + y_offset)
      .ok (x, y, span_a)

/-- A wire record carrying only a unit weight of `1 N/m`, mirroring the test
suite's bare-weight calls. -/
def wire1 : Wire :=
  { type := "", name := "", cross_section := 0, diameter := 0, weight := 1,
    resistance := 0, temp_coef := 0, breaking_strength := 0, safety_factor := 0,
    elastic_modulus := 0, thermal_expansion := 0 }

lemma dip_calc_pos (w : Wire) (span tension : ℚ)
    (hw : 0 < w.weight) (hs : 0 < span) (ht : 0 < tension) :
    dip_calc w span tension = .ok (w.weight * span ^ 2 / (8 * tension)) := by
  unfold dip_calc
  rw [if_neg]
  push_neg
  exact ⟨hw, hs, ht⟩

lemma tension_calc_pos (w : Wire) (span dip : ℚ)
    (hw : 0 < w.weight) (hs : 0 < span) (hd : 0 < dip) :
    tension_calc w span dip = .ok (w.weight * span ^ 2 / (8 * dip)) := by
  unfold tension_calc
  rw [if_neg]
  push_neg
  exact ⟨hw, hs, hd⟩

/-- C1: for positive weight, span and tension, `dip_calc` returns
`weight·span²/(8·tension)`; for positive weight, span and dip, `tension_calc`
returns `weight·span²/(8·dip)`; the literal reference cases give `0.3125` and
`625`; and each function fails with `InvalidArgument` whenever any of its three
numeric arguments is non-positive. -/
theorem dip_tension_formulas (w : Wire) (span tension dip : ℚ) :
    (0 < w.weight → 0 < span → 0 < tension →
      dip_calc w span tension = .ok (w.weight * span ^ 2 / (8 * tension))) ∧
    (0 < w.weight → 0 < span → 0 < dip →
      tension_calc w span dip = .ok (w.weight * span ^ 2 / (8 * dip))) ∧
    (w.weight ≤ 0 ∨ span ≤ 0 ∨ tension ≤ 0 →
      dip_calc w span tension = .error .invalidArgument) ∧
    (w.weight ≤ 0 ∨ span ≤ 0 ∨ dip ≤ 0 →
      tension_calc w span dip = .error .invalidArgument) ∧
    dip_calc wire1 50 1000 = .ok 0.3125 ∧
    tension_calc wire1 50 0.5 = .ok 625 := by
  refine ⟨fun hw hs ht => dip_calc_pos w span tension hw hs ht,
    fun hw hs hd => tension_calc_pos w span dip hw hs hd, ?_, ?_,
    by norm_num [dip_calc, wire1], by norm_num [tension_calc, wire1]⟩
  · intro h
    unfold dip_calc
    rw [if_pos h]
  · intro h
    unfold tension_calc
    rw [if_pos h]

theorem dip_tension_formulas_witness :
    0 < wire1.weight ∧ (0 : ℚ) < 50 ∧ (0 : ℚ) < 1000 ∧ (0 : ℚ) < 1 / 2 ∧
    dip_calc wire1 50 1000 = .ok (wire1.weight * 50 ^ 2 / (8 * 1000)) ∧
    tension_calc wire1 50 (1 / 2) = .ok (wire1.weight * 50 ^ 2 / (8 * (1 / 2))) :=
  ⟨by norm_num [wire1], by norm_num, by norm_num, by norm_num,
    (dip_tension_formulas wire1 50 1000 (1 / 2)).1 (by norm_num [wire1]) (by norm_num)
      (by norm_num),
    (dip_tension_formulas wire1 50 1000 (1 / 2)).2.1 (by norm_num [wire1]) (by norm_num)
      (by norm_num)⟩

/-- C5 (failing input): the documented exactly-one-supplied usage — dip omitted,
a positive tension supplied — does not return the counterpart dip `0.3125`;
the guard compares the absent `dip` (`None`) with `0` and raises `TypeError`. -/
theorem dip_tension_calc_omitted_dip_raises :
    dip_tension_calc wire1 50 none (some 1000) = .error .typeError := by
  norm_num [dip_tension_calc, wire1]

/-- C10: `dip_tension_calc` returns normally only when both `dip` and `tension`
are supplied and positive (with positive weight and span), and then returns
`weight·span²/(8·dip)`, ignoring the supplied tension; any call omitting `dip`
or `tension` errors in the positivity guard, the omitted-value comparisons
surfacing as `TypeError`. -/
theorem dip_tension_calc_behavior (w : Wire) (span : ℚ) (dip tension : Option ℚ) :
    (∀ r : ℚ, dip_tension_calc w span dip tension = .ok r →
      ∃ d tn, dip = some d ∧ tension = some tn ∧ 0 < w.weight ∧ 0 < span ∧
        0 < d ∧ 0 < tn ∧ r = w.weight * span ^ 2 / (8 * d)) ∧
    (0 < w.weight → 0 < span → dip = none →
      dip_tension_calc w span dip tension = .error .typeError) ∧
    (∀ d : ℚ, 0 < w.weight → 0 < span → 0 < d → dip = some d → tension = none →
      dip_tension_calc w span dip tension = .error .typeError) ∧
    (dip = none ∨ tension = none →
      ∃ e, dip_tension_calc w span dip tension = .error e) := by
  refine ⟨?_, ?_, ?_, ?_⟩
  · intro r h
    unfold dip_tension_calc at h
    split_ifs at h with hw hs
    cases dip with
    | none => exact absurd h (by simp)
    | some d =>
      simp only [] at h
      split_ifs at h with hd
      cases tension with
      | none => exact absurd h (by simp)
      | some tn =>
        simp only [] at h
        split_ifs at h with htn
        exact ⟨d, tn, rfl, rfl, lt_of_not_le hw, lt_of_not_le hs,
          lt_of_not_le hd, lt_of_not_le htn, by simpa using h.symm⟩
  · intro hw hs hdip
    subst hdip
    unfold dip_tension_calc
    rw [if_neg (not_le.mpr hw), if_neg (not_le.mpr hs)]
  · intro d hw hs hd hdip htn
    subst hdip; subst htn
    unfold dip_tension_calc
    rw [if_neg (not_le.mpr hw), if_neg (not_le.mpr hs)]
    simp only []
    rw [if_neg (not_le.mpr hd)]
  · intro hnone
    unfold dip_tension_calc
    split_ifs with hw hs
    · exact ⟨_, rfl⟩
    · exact ⟨_, rfl⟩
    · cases dip with
      | none => exact ⟨_, rfl⟩
      | some d =>
        rcases hnone with hnone | hnone
        · exact absurd hnone (by simp)
        · subst hnone
          simp only []
          split_ifs with hd
          · exact ⟨_, rfl⟩
          · exact ⟨_, rfl⟩

theorem dip_tension_calc_behavior_witness :
    0 < wire1.weight ∧ (0 : ℚ) < 50 ∧ (0 : ℚ) < 5 / 16 ∧
    dip_tension_calc wire1 50 (some (5 / 16)) none = .error .typeError :=
  ⟨by norm_num [wire1], by norm_num, by norm_num,
    (dip_tension_calc_behavior wire1 50 (some (5 / 16)) none).2.2.1 (5 / 16)
      (by norm_num [wire1]) (by norm_num) (by norm_num) rfl rfl⟩

/-- The `i`-th sampled ordinate of a `catenary_calc` result, when it succeeded. -/
def yAt (r : Except CalcError (List ℚ × List ℚ × ℚ)) (i : ℕ) : Option ℚ :=
  match r with
  | .ok (_, ys, _) => ys[i]?
  | .error _ => none

/-- The apex abscissa of a `catenary_calc` result, when it succeeded. -/
def apexOf (r : Except CalcError (List ℚ × List ℚ × ℚ)) : Option ℚ :=
  match r with
  | .ok (_, _, a) => some a
  | .error _ => none

/-- Whether a `catenary_calc` result succeeded. -/
def calcOk (r : Except CalcError (List ℚ × List ℚ × ℚ)) : Bool :=
  match r with
  | .ok _ => true
  | .error _ => false

lemma linspace_length (a b : ℚ) (n : ℕ) : (linspace a b n).length = n := by
  unfold linspace
  rw [List.length_map, List.length_range]

lemma linspace_getElem? (a b : ℚ) (n i : ℕ) (h : i < n) :
    (linspace a b n)[i]? = some (a + (b - a) * (i : ℚ) / ((n : ℚ) - 1)) := by
  unfold linspace
  rw [List.getElem?_map, List.getElem?_range h, Option.map_some']

lemma catenary_calc_pos_some (w : Wire) (span tension dip h1 h2 : ℚ)
    (hw : 0 < w.weight) (hs : 0 < span) (ht : 0 < tension) (hd : 0 < dip) :
    catenary_calc w span tension dip h1 (some h2) =
      .ok (linspace 0 span 100,
        (linspace 0 span 100).map (fun xi =>
          w.weight / (2 * tension) * (xi - apexOffset w span tension h1 h2) ^ 2 +
            (h1 - w.weight / (2 * tension) * (apexOffset w span tension h1 h2) ^ 2)),
        apexOffset w span tension h1 h2) := by
  unfold catenary_calc
  rw [if_neg]
  push_neg
  exact ⟨hw, hs, ht, hd⟩

lemma catenary_calc_pos_none (w : Wire) (span tension dip h1 : ℚ)
    (hw : 0 < w.weight) (hs : 0 < span) (ht : 0 < tension) (hd : 0 < dip) :
    catenary_calc w span tension dip h1 none =
      .ok (linspace 0 span 100,
        (linspace 0 span 100).map (levelY w span tension dip h1), span / 2) := by
  unfold catenary_calc
  rw [if_neg]
  push_neg
  exact ⟨hw, hs, ht, hd⟩

/-- C4: in the inclined case the apex abscissa is
`span/2 − tension·(height2 − height1)/(weight·span)`, the first sample (at
`x = 0`) has ordinate exactly `height1`, the last sample (at `x = span`) has
ordinate exactly `height2`, and equal support heights put the apex at
mid-span. -/
theorem inclined_curve_boundaries (w : Wire) (span tension dip h1 h2 : ℚ)
    (hw : 0 < w.weight) (hs : 0 < span) (ht : 0 < tension) (hd : 0 < dip) :
    apexOf (catenary_calc w span tension dip h1 (some h2)) =
      some (span / 2 - tension * (h2 - h1) / (w.weight * span)) ∧
    yAt (catenary_calc w span tension dip h1 (some h2)) 0 = some h1 ∧
    yAt (catenary_calc w span tension dip h1 (some h2)) 99 = some h2 ∧
    (h1 = h2 →
      apexOf (catenary_calc w span tension dip h1 (some h2)) = some (span / 2)) := by
  rw [catenary_calc_pos_some w span tension dip h1 h2 hw hs ht hd]
  refine ⟨by simp [apexOf, apexOffset], ?_, ?_, ?_⟩
  · simp only [yAt, List.getElem?_map,
      linspace_getElem? 0 span 100 0 (by norm_num), Option.map_some']
    rw [Option.some_inj]
    ring
  · simp only [yAt, List.getElem?_map,
      linspace_getElem? 0 span 100 99 (by norm_num), Option.map_some']
    rw [Option.some_inj]
    unfold apexOffset
    field_simp
    ring
  · intro h
    subst h
    simp only [apexOf, apexOffset, Option.some_inj]
    ring

theorem inclined_curve_boundaries_witness :
    0 < wire1.weight ∧ (0 : ℚ) < 2 ∧ (0 : ℚ) < 1 ∧ (0 : ℚ) < 1 ∧
    (apexOf (catenary_calc wire1 2 1 1 0 (some 1)) =
      some (2 / 2 - 1 * (1 - 0) / (wire1.weight * 2)) ∧
    yAt (catenary_calc wire1 2 1 1 0 (some 1)) 0 = some 0 ∧
    yAt (catenary_calc wire1 2 1 1 0 (some 1)) 99 = some 1 ∧
    ((0 : ℚ) = 1 →
      apexOf (catenary_calc wire1 2 1 1 0 (some 1)) = some (2 / 2))) :=
  ⟨by norm_num [wire1], by norm_num, by norm_num, by norm_num,
    inclined_curve_boundaries wire1 2 1 1 0 1 (by norm_num [wire1]) (by norm_num)
      (by norm_num) (by norm_num)⟩

/-- C9 (counterexample): an inclined-case call with positive weight, span and
tension but non-positive dip does not succeed — the guard rejects `dip ≤ 0`
even though the inclined branch never consumes `dip`. -/
theorem inclined_dip_zero_rejected :
    catenary_calc wire1 1 1 0 0 (some 1) = .error .invalidArgument := by
  norm_num [catenary_calc, wire1]

/-- C9 (amended): `catenary_calc` requires `dip > 0` in both cases: with
positive weight, span and tension, a non-positive dip fails with
`InvalidArgument` even in the inclined case, and a positive dip succeeds. -/
theorem catenary_dip_guard (w : Wire) (span tension dip h1 h2 : ℚ)
    (hw : 0 < w.weight) (hs : 0 < span) (ht : 0 < tension) :
    (dip ≤ 0 →
      catenary_calc w span tension dip h1 (some h2) = .error .invalidArgument) ∧
    (0 < dip → calcOk (catenary_calc w span tension dip h1 (some h2)) = true) := by
  constructor
  · intro hd
    unfold catenary_calc
    rw [if_pos (Or.inr (Or.inr (Or.inr hd)))]
  · intro hd
    rw [catenary_calc_pos_some w span tension dip h1 h2 hw hs ht hd]
    rfl

theorem catenary_dip_guard_witness :
    0 < wire1.weight ∧ (0 : ℚ) < 1 ∧
    catenary_calc wire1 1 1 (-1) 0 (some 1) = .error .invalidArgument ∧
    calcOk (catenary_calc wire1 1 1 1 0 (some 1)) = true :=
  ⟨by norm_num [wire1], by norm_num,
    (catenary_dip_guard wire1 1 1 (-1) 0 1 (by norm_num [wire1]) (by norm_num)
      (by norm_num)).1 (by norm_num),
    (catenary_dip_guard wire1 1 1 1 0 1 (by norm_num [wire1]) (by norm_num)
      (by norm_num)).2 (by norm_num)⟩

/-- A wire of unit weight `2 N/m`, for the level-case sampling counterexample. -/
def wireC7 : Wire :=
  { type := "", name := "", cross_section := 0, diameter := 0, weight := 2,
    resistance := 0, temp_coef := 0, breaking_strength := 0, safety_factor := 0,
    elastic_modulus := 0, thermal_expansion := 0 }

lemma sample_dist_sq_ge (span : ℚ) (i : ℕ) (h : i < 100) :
    span ^ 2 / 39204 ≤ ((i : ℚ) * span / 99 - span / 2) ^ 2 := by
  have hkZ : (1 : ℤ) ≤ (2 * (i : ℤ) - 99) ^ 2 := by
    rcases (by omega : 2 * (i : ℤ) - 99 ≤ -1 ∨ 1 ≤ 2 * (i : ℤ) - 99) with h0 | h0
    · nlinarith
    · nlinarith
  have hkQ : (1 : ℚ) ≤ ((2 * (i : ℤ) - 99 : ℤ) : ℚ) ^ 2 := by exact_mod_cast hkZ
  have hrw : ((i : ℚ) * span / 99 - span / 2) ^ 2 =
      span ^ 2 * ((2 * (i : ℤ) - 99 : ℤ) : ℚ) ^ 2 / 39204 := by
    push_cast
    ring
  rw [hrw]
  nlinarith [mul_nonneg (sq_nonneg span) (sub_nonneg.mpr hkQ)]

lemma levelY_at_mid_neighbor (w : Wire) (span tension dip h1 : ℚ)
    (ht : tension ≠ 0) :
    levelY w span tension dip h1 ((49 : ℚ) * span / 99) =
      h1 - dip + w.weight * span ^ 2 / (78408 * tension) ∧
    levelY w span tension dip h1 ((50 : ℚ) * span / 99) =
      h1 - dip + w.weight * span ^ 2 / (78408 * tension) := by
  unfold levelY
  constructor <;> (field_simp; ring)

lemma levelY_min_bound (w : Wire) (span tension dip h1 : ℚ)
    (hw : 0 < w.weight) (ht : 0 < tension) (i : ℕ) (h : i < 100) :
    h1 - dip + w.weight * span ^ 2 / (78408 * tension) ≤
      levelY w span tension dip h1 ((i : ℚ) * span / 99) := by
  unfold levelY
  have hcoef : 0 < w.weight / (2 * tension) := by positivity
  have hdist := sample_dist_sq_ge span i h
  have hmul := mul_le_mul_of_nonneg_left hdist hcoef.le
  have hval : w.weight / (2 * tension) * (span ^ 2 / 39204) =
      w.weight * span ^ 2 / (78408 * tension) := by
    rw [div_mul_div_comm]
    congr 1
    ring
  linarith [hmul, hval.ge, hval.le]

lemma levelYs_bound (w : Wire) (span tension dip h1 : ℚ)
    (hw : 0 < w.weight) (ht : 0 < tension) :
    ∀ q ∈ (linspace 0 span 100).map (levelY w span tension dip h1),
      h1 - dip + w.weight * span ^ 2 / (78408 * tension) ≤ q := by
  intro q hq
  rw [List.mem_map] at hq
  obtain ⟨x, hx, rfl⟩ := hq
  unfold linspace at hx
  rw [List.mem_map] at hx
  obtain ⟨i, hi, rfl⟩ := hx
  rw [List.mem_range] at hi
  have hb := levelY_min_bound w span tension dip h1 hw ht i hi
  have hxeq : (0 : ℚ) + (span - 0) * (i : ℚ) / (((100 : ℕ) : ℚ) - 1) =
      (i : ℚ) * span / 99 := by
    push_cast
    ring
  rw [hxeq]
  exact hb

/-- C7 (counterexample): for weight `2`, span `198`, tension `1`, dip `1`,
`height1 = 1`, the level-case call succeeds, but the minimum sampled ordinate
is not `height1 - dip`: mid-span is never sampled (the 100-point grid has no
point at `span/2`), so every sample exceeds `height1 - dip`. -/
theorem level_min_counterexample :
    catenary_calc wireC7 198 1 1 1 none =
      .ok (linspace 0 198 100,
        (linspace 0 198 100).map (levelY wireC7 198 1 1 1), 99) ∧
    ((linspace 0 198 100).map (levelY wireC7 198 1 1 1)).min? ≠ some (1 - 1) := by
  constructor
  · rw [catenary_calc_pos_none wireC7 198 1 1 1 (by norm_num [wireC7]) (by norm_num)
      (by norm_num) (by norm_num)]
    norm_num
  · intro hmin
    have hmem : (1 - 1 : ℚ) ∈
        (linspace 0 198 100).map (levelY wireC7 198 1 1 1) :=
      List.min?_mem (fun a b => min_choice a b) hmin
    have hb := levelYs_bound wireC7 198 1 1 1 (by norm_num [wireC7]) (by norm_num)
      (1 - 1) hmem
    norm_num [wireC7] at hb

/-- C7 (amended): the level case produces exactly 100 samples uniformly spaced
over `[0, span]` inclusive, with `y(x) = weight/(2·tension)·(x − span/2)² +
(height1 − dip)` at every sample and apex `span/2`; the first and last sampled
ordinates equal `height1 − dip + weight/(2·tension)·(span/2)²`; the minimum
sampled ordinate occurs at the sampled abscissas closest to `span/2` (the tied
pair `x₄₉`, `x₅₀`) and equals `height1 − dip + weight·span²/(78408·tension)`
(not `height1 − dip`, which is the unsampled true vertex value). -/
theorem level_curve_samples (w : Wire) (span tension dip h1 : ℚ)
    (hw : 0 < w.weight) (hs : 0 < span) (ht : 0 < tension) (hd : 0 < dip) :
    catenary_calc w span tension dip h1 none =
      .ok (linspace 0 span 100,
        (linspace 0 span 100).map (levelY w span tension dip h1), span / 2) ∧
    (linspace 0 span 100).length = 100 ∧
    ((linspace 0 span 100).map (levelY w span tension dip h1)).length = 100 ∧
    (∀ i : ℕ, i < 100 →
      (linspace 0 span 100)[i]? = some ((i : ℚ) * span / 99)) ∧
    (∀ i : ℕ, i < 100 →
      ((linspace 0 span 100).map (levelY w span tension dip h1))[i]? =
        some (w.weight / (2 * tension) * ((i : ℚ) * span / 99 - span / 2) ^ 2 +
          (h1 - dip))) ∧
    yAt (catenary_calc w span tension dip h1 none) 0 =
      some (h1 - dip + w.weight / (2 * tension) * (span / 2) ^ 2) ∧
    yAt (catenary_calc w span tension dip h1 none) 99 =
      some (h1 - dip + w.weight / (2 * tension) * (span / 2) ^ 2) ∧
    (∀ q ∈ (linspace 0 span 100).map (levelY w span tension dip h1),
      h1 - dip + w.weight * span ^ 2 / (78408 * tension) ≤ q) ∧
    levelY w span tension dip h1 ((49 : ℚ) * span / 99) =
      h1 - dip + w.weight * span ^ 2 / (78408 * tension) ∧
    levelY w span tension dip h1 ((50 : ℚ) * span / 99) =
      h1 - dip + w.weight * span ^ 2 / (78408 * tension) ∧
    (∀ i : ℕ, i < 100 →
      ((49 : ℚ) * span / 99 - span / 2) ^ 2 ≤ ((i : ℚ) * span / 99 - span / 2) ^ 2) := by
  have hcal := catenary_calc_pos_none w span tension dip h1 hw hs ht hd
  refine ⟨hcal, linspace_length 0 span 100, ?_, ?_, ?_, ?_, ?_,
    levelYs_bound w span tension dip h1 hw ht,
    (levelY_at_mid_neighbor w span tension dip h1 ht.ne').1,
    (levelY_at_mid_neighbor w span tension dip h1 ht.ne').2, ?_⟩
  · rw [List.length_map, linspace_length]
  · intro i hi
    rw [linspace_getElem? 0 span 100 i hi, Option.some_inj]
    push_cast
    ring
  · intro i hi
    rw [List.getElem?_map, linspace_getElem? 0 span 100 i hi, Option.map_some',
      Option.some_inj]
    unfold levelY
    push_cast
    ring
  · rw [hcal]
    simp only [yAt, List.getElem?_map, linspace_getElem? 0 span 100 0 (by norm_num),
      Option.map_some', Option.some_inj]
    unfold levelY
    push_cast
    ring
  · rw [hcal]
    simp only [yAt, List.getElem?_map, linspace_getElem? 0 span 100 99 (by norm_num),
      Option.map_some', Option.some_inj]
    unfold levelY
    push_cast
    ring
  · intro i hi
    have h1' := sample_dist_sq_ge span i hi
    have h2' : ((49 : ℚ) * span / 99 - span / 2) ^ 2 = span ^ 2 / 39204 := by ring
    linarith [h2'.le, h2'.ge]

theorem level_curve_samples_witness :
    0 < wire1.weight ∧ (0 : ℚ) < 1 ∧
    catenary_calc wire1 1 1 1 0 none =
      .ok (linspace 0 1 100, (linspace 0 1 100).map (levelY wire1 1 1 1 0), 1 / 2) ∧
    levelY wire1 1 1 1 0 ((49 : ℚ) * 1 / 99) =
      0 - 1 + wire1.weight * 1 ^ 2 / (78408 * 1) :=
  ⟨by norm_num [wire1], by norm_num,
    (level_curve_samples wire1 1 1 1 0 (by norm_num [wire1]) (by norm_num) (by norm_num)
      (by norm_num)).1,
    (level_curve_samples wire1 1 1 1 0 (by norm_num [wire1]) (by norm_num) (by norm_num)
      (by norm_num)).2.2.2.2.2.2.2.2.1⟩

/-- Coefficient `d_arg2` of the dip cubic in `calc_dip_tension_with_temperature`. -/
def d_arg2 (wire : Wire) (span tension t t0 dip0 : ℚ) : ℚ :=
  3 * span ^ 2 / (8 * wire.cross_section * wire.elastic_modulus) *
      (tension - wire.cross_section * wire.elastic_modulus *
        wire.thermal_expansion * (t - t0)) -
    dip0 ^ 2

/-- Coefficient `d_arg3` of the dip cubic in `calc_dip_tension_with_temperature`. -/
def d_arg3 (wire : Wire) (span : ℚ) : ℚ :=
  3 * wire.weight * span ^ 4 / (64 * wire.cross_section * wire.elastic_modulus)

/-- Coefficient `t_arg2` of the tension cubic in `calc_dip_tension_with_temperature`. -/
def t_arg2 (wire : Wire) (span tension t t0 dip0 : ℚ) : ℚ :=
  tension -
    8 * wire.cross_section * wire.elastic_modulus * dip0 ^ 2 / (3 * span ^ 2) -
    wire.cross_section * wire.elastic_modulus * wire.thermal_expansion * (t - t0)

/-- Coefficient `t_arg3` of the tension cubic in `calc_dip_tension_with_temperature`. -/
def t_arg3 (wire : Wire) (span : ℚ) : ℚ :=
  wire.cross_section * wire.elastic_modulus * wire.weight ^ 2 * span ^ 2 / 24

/-- A value the generator `next(r for r in roots_d if np.isreal(r) and r > 0)`
can select: a positive real zero of the dip cubic
`np.roots [1, 0, d_arg2, -d_arg3]`, i.e. `d³ + d_arg2·d − d_arg3 = 0`. -/
def DipRoot (wire : Wire) (span tension t t0 dip0 : ℚ) (d : ℝ) : Prop :=
  0 < d ∧
    d ^ 3 + (d_arg2 wire span tension t t0 dip0 : ℝ) * d -
      (d_arg3 wire span : ℝ) = 0

/-- A value the generator `next(r for r in roots_t if np.isreal(r) and r > 0)`
can select: a positive real zero of the tension cubic
`np.roots [1, -t_arg2, 0, -t_arg3]`, i.e. `x³ − t_arg2·x² − t_arg3 = 0`. -/
def TensRoot (wire : Wire) (span tension t t0 dip0 : ℚ) (x : ℝ) : Prop :=
  0 < x ∧
    x ^ 3 - (t_arg2 wire span tension t t0 dip0 : ℝ) * x ^ 2 -
      (t_arg3 wire span : ℝ) = 0

/-- The possible outcomes of `calc_dip_tension_with_temperature`: the guard
rejects non-positive weight/span/tension; otherwise `dip0` is obtained from
`dip_calc`, and the call returns a positive real root of each cubic, or else
raises (`StopIteration`, modelled as `numericalDivergence`) when a cubic has
no positive real root.  The root actually selected by `np.roots` is
unspecified, so the `ok` outcome admits any positive real root. -/
inductive CalcTemp (w : Wire) (span tension t t0 : ℚ) :
    Except CalcError (ℝ × ℝ) → Prop where
  | invalid :
      (w.weight ≤ 0 ∨ span ≤ 0 ∨ tension ≤ 0) →
      CalcTemp w span tension t t0 (.error .invalidArgument)
  | ok {d T' : ℝ} (dip0 : ℚ) :
      ¬(w.weight ≤ 0 ∨ span ≤ 0 ∨ tension ≤ 0) →
      dip_calc w span tension = .ok dip0 →
      DipRoot w span tension t t0 dip0 d →
      TensRoot w span tension t t0 dip0 T' →
      CalcTemp w span tension t t0 (.ok (d, T'))
  | noDipRoot (dip0 : ℚ) :
      ¬(w.weight ≤ 0 ∨ span ≤ 0 ∨ tension ≤ 0) →
      dip_calc w span tension = .ok dip0 →
      (∀ d : ℝ, ¬ DipRoot w span tension t t0 dip0 d) →
      CalcTemp w span tension t t0 (.error .numericalDivergence)
  | noTensRoot (dip0 : ℚ) {d : ℝ} :
      ¬(w.weight ≤ 0 ∨ span ≤ 0 ∨ tension ≤ 0) →
      dip_calc w span tension = .ok dip0 →
      DipRoot w span tension t t0 dip0 d →
      (∀ x : ℝ, ¬ TensRoot w span tension t t0 dip0 x) →
      CalcTemp w span tension t t0 (.error .numericalDivergence)

lemma calcTemp_ok_inv (w : Wire) (span tension t t0 : ℚ) (d T' : ℝ)
    (hw : 0 < w.weight) (hs : 0 < span) (ht : 0 < tension)
    (h : CalcTemp w span tension t t0 (.ok (d, T'))) :
    DipRoot w span tension t t0 (w.weight * span ^ 2 / (8 * tension)) d ∧
    TensRoot w span tension t t0 (w.weight * span ^ 2 / (8 * tension)) T' := by
  cases h with
  | ok dip0 hg hdip0 hD hT =>
    rw [dip_calc_pos w span tension hw hs ht] at hdip0
    injection hdip0 with h0
    subst h0
    exact ⟨hD, hT⟩

/-- C3: whenever the temperature-adjusted computation returns normally under
positive weight, span, reference tension, cross-section and elastic modulus,
the returned dip `d` is positive and satisfies the spec's cubic
`d³ + d_arg2·d − d_arg3 = 0` with
`d_arg2 = (3·span²)/(8·EA)·(tension − EA·α·(t − t0)) − dip0²` and
`d_arg3 = 3·weight·span⁴/(64·EA)`, where `EA = crossSection·elasticModulus`
and `dip0 = weight·span²/(8·tension)`. -/
theorem dip_satisfies_cubic (w : Wire) (span tension t t0 : ℚ) (d T' : ℝ)
    (hw : 0 < w.weight) (hs : 0 < span) (ht : 0 < tension)
    (hcs : 0 < w.cross_section) (hem : 0 < w.elastic_modulus)
    (h : CalcTemp w span tension t t0 (.ok (d, T'))) :
    0 < d ∧
    d ^ 3 +
      ((3 * span ^ 2 / (8 * (w.cross_section * w.elastic_modulus)) *
          (tension - (w.cross_section * w.elastic_modulus) *
            w.thermal_expansion * (t - t0)) -
        (w.weight * span ^ 2 / (8 * tension)) ^ 2 : ℚ) : ℝ) * d -
      ((3 * w.weight * span ^ 4 /
          (64 * (w.cross_section * w.elastic_modulus)) : ℚ) : ℝ) = 0 := by
  obtain ⟨hD, -⟩ := calcTemp_ok_inv w span tension t t0 d T' hw hs ht h
  obtain ⟨hpos, heq⟩ := hD
  refine ⟨hpos, ?_⟩
  have e2 : d_arg2 w span tension t t0 (w.weight * span ^ 2 / (8 * tension)) =
      3 * span ^ 2 / (8 * (w.cross_section * w.elastic_modulus)) *
        (tension - (w.cross_section * w.elastic_modulus) *
          w.thermal_expansion * (t - t0)) -
      (w.weight * span ^ 2 / (8 * tension)) ^ 2 := by
    unfold d_arg2
    ring
  have e3 : d_arg3 w span =
      3 * w.weight * span ^ 4 / (64 * (w.cross_section * w.elastic_modulus)) := by
    unfold d_arg3
    ring
  rw [← e2, ← e3]
  exact heq

/-- A wire (weight `8`, cross-section `1`, modulus `3`, zero expansion) whose
temperature run at `t = t0` has the rational roots `dip = 1`, `tension = 1`. -/
def wireC3 : Wire :=
  { type := "", name := "", cross_section := 1, diameter := 0, weight := 8,
    resistance := 0, temp_coef := 0, breaking_strength := 0, safety_factor := 0,
    elastic_modulus := 3, thermal_expansion := 0 }

lemma calcTempC3 : CalcTemp wireC3 1 1 0 0 (.ok (1, 1)) := by
  refine CalcTemp.ok 1 ?_ ?_ ?_ ?_
  · norm_num [wireC3]
  · rw [dip_calc_pos wireC3 1 1 (by norm_num [wireC3]) one_pos one_pos]
    norm_num [wireC3]
  · refine ⟨one_pos, ?_⟩
    have e2 : d_arg2 wireC3 1 1 0 0 1 = -(7 / 8) := by norm_num [d_arg2, wireC3]
    have e3 : d_arg3 wireC3 1 = 1 / 8 := by norm_num [d_arg3, wireC3]
    rw [e2, e3]
    push_cast
    norm_num
  · refine ⟨one_pos, ?_⟩
    have e2 : t_arg2 wireC3 1 1 0 0 1 = -7 := by norm_num [t_arg2, wireC3]
    have e3 : t_arg3 wireC3 1 = 8 := by norm_num [t_arg3, wireC3]
    rw [e2, e3]
    push_cast
    norm_num

theorem dip_satisfies_cubic_witness :
    0 < wireC3.weight ∧ (0 : ℚ) < 1 ∧ 0 < wireC3.cross_section ∧
    0 < wireC3.elastic_modulus ∧
    (0 < (1 : ℝ) ∧
      (1 : ℝ) ^ 3 +
        ((3 * (1 : ℚ) ^ 2 / (8 * (wireC3.cross_section * wireC3.elastic_modulus)) *
            (1 - (wireC3.cross_section * wireC3.elastic_modulus) *
              wireC3.thermal_expansion * (0 - 0)) -
          (wireC3.weight * 1 ^ 2 / (8 * 1)) ^ 2 : ℚ) : ℝ) * 1 -
        ((3 * wireC3.weight * 1 ^ 4 /
            (64 * (wireC3.cross_section * wireC3.elastic_modulus)) : ℚ) : ℝ) = 0) :=
  ⟨by norm_num [wireC3], by norm_num, by norm_num [wireC3], by norm_num [wireC3],
    dip_satisfies_cubic wireC3 1 1 0 0 1 1 (by norm_num [wireC3]) (by norm_num)
      (by norm_num) (by norm_num [wireC3]) (by norm_num [wireC3]) calcTempC3⟩

/-- A wire (weight `8`, cross-section `1`, modulus `1`, zero expansion) whose
temperature run at `t = t0`, tension `2`, has roots `dip = 1/2`, `tension = 2`. -/
def wireC2 : Wire :=
  { type := "", name := "", cross_section := 1, diameter := 0, weight := 8,
    resistance := 0, temp_coef := 0, breaking_strength := 0, safety_factor := 0,
    elastic_modulus := 1, thermal_expansion := 0 }

lemma calcTempC2 : CalcTemp wireC2 1 2 0 0 (.ok (1 / 2, 2)) := by
  refine CalcTemp.ok (1 / 2) ?_ ?_ ?_ ?_
  · norm_num [wireC2]
  · rw [dip_calc_pos wireC2 1 2 (by norm_num [wireC2]) one_pos (by norm_num)]
    norm_num [wireC2]
  · refine ⟨by norm_num, ?_⟩
    have e2 : d_arg2 wireC2 1 2 0 0 (1 / 2) = 1 / 2 := by norm_num [d_arg2, wireC2]
    have e3 : d_arg3 wireC2 1 = 3 / 8 := by norm_num [d_arg3, wireC2]
    rw [e2, e3]
    push_cast
    norm_num
  · refine ⟨by norm_num, ?_⟩
    have e2 : t_arg2 wireC2 1 2 0 0 (1 / 2) = 4 / 3 := by norm_num [t_arg2, wireC2]
    have e3 : t_arg3 wireC2 1 = 8 / 3 := by norm_num [t_arg3, wireC2]
    rw [e2, e3]
    push_cast
    norm_num

/-- C2 (counterexample): a normal return of the temperature-adjusted
computation (weight `8`, span `1`, reference tension `2`, cross-section `1`,
modulus `1`, zero expansion, `t = t0`) yields tension `2`, which does not
satisfy the spec's claimed cubic `t³ − t_arg2·t − t_arg3 = 0` with the linear
term: the code's cubic carries `t_arg2` on the quadratic term. -/
theorem tension_cubic_counterexample :
    CalcTemp wireC2 1 2 0 0 (.ok (1 / 2, 2)) ∧
    ¬((2 : ℝ) ^ 3 -
        ((2 - 8 * (wireC2.cross_section * wireC2.elastic_modulus) *
            (wireC2.weight * 1 ^ 2 / (8 * 2)) ^ 2 / (3 * 1 ^ 2) -
          (wireC2.cross_section * wireC2.elastic_modulus) *
            wireC2.thermal_expansion * (0 - 0) : ℚ) : ℝ) * 2 -
        ((wireC2.cross_section * wireC2.elastic_modulus * wireC2.weight ^ 2 *
            1 ^ 2 / 24 : ℚ) : ℝ) = 0) := by
  refine ⟨calcTempC2, ?_⟩
  have e2 : (2 - 8 * (wireC2.cross_section * wireC2.elastic_modulus) *
      (wireC2.weight * 1 ^ 2 / (8 * 2)) ^ 2 / (3 * 1 ^ 2) -
      (wireC2.cross_section * wireC2.elastic_modulus) *
        wireC2.thermal_expansion * (0 - 0) : ℚ) = 4 / 3 := by
    norm_num [wireC2]
  have e3 : (wireC2.cross_section * wireC2.elastic_modulus * wireC2.weight ^ 2 *
      1 ^ 2 / 24 : ℚ) = 8 / 3 := by
    norm_num [wireC2]
  rw [e2, e3]
  push_cast
  norm_num

/-- C2 (amended): whenever the temperature-adjusted computation returns
normally under positive weight, span, reference tension, cross-section and
elastic modulus, the returned tension `T'` is positive and satisfies the
cubic actually constructed by the code, `t³ − t_arg2·t² − t_arg3 = 0`
(quadratic term, per the coefficient vector `[1, -t_arg2, 0, -t_arg3]`), with
`t_arg2 = tension − (8·EA·dip0²)/(3·span²) − EA·α·(t − t0)` and
`t_arg3 = EA·weight²·span²/24`, where `EA = crossSection·elasticModulus` and
`dip0 = weight·span²/(8·tension)`. -/
theorem tension_satisfies_cubic (w : Wire) (span tension t t0 : ℚ) (d T' : ℝ)
    (hw : 0 < w.weight) (hs : 0 < span) (ht : 0 < tension)
    (hcs : 0 < w.cross_section) (hem : 0 < w.elastic_modulus)
    (h : CalcTemp w span tension t t0 (.ok (d, T'))) :
    0 < T' ∧
    T' ^ 3 -
      ((tension - 8 * (w.cross_section * w.elastic_modulus) *
          (w.weight * span ^ 2 / (8 * tension)) ^ 2 / (3 * span ^ 2) -
        (w.cross_section * w.elastic_modulus) *
          w.thermal_expansion * (t - t0) : ℚ) : ℝ) * T' ^ 2 -
      ((w.cross_section * w.elastic_modulus * w.weight ^ 2 * span ^ 2 /
          24 : ℚ) : ℝ) = 0 := by
  obtain ⟨-, hT⟩ := calcTemp_ok_inv w span tension t t0 d T' hw hs ht h
  obtain ⟨hpos, heq⟩ := hT
  refine ⟨hpos, ?_⟩
  have e2 : t_arg2 w span tension t t0 (w.weight * span ^ 2 / (8 * tension)) =
      tension - 8 * (w.cross_section * w.elastic_modulus) *
        (w.weight * span ^ 2 / (8 * tension)) ^ 2 / (3 * span ^ 2) -
      (w.cross_section * w.elastic_modulus) *
        w.thermal_expansion * (t - t0) := by
    unfold t_arg2
    ring
  have e3 : t_arg3 w span =
      w.cross_section * w.elastic_modulus * w.weight ^ 2 * span ^ 2 / 24 := by
    unfold t_arg3
    ring
  rw [← e2, ← e3]
  exact heq

theorem tension_satisfies_cubic_witness :
    0 < wireC2.weight ∧ (0 : ℚ) < 1 ∧ (0 : ℚ) < 2 ∧ 0 < wireC2.cross_section ∧
    0 < wireC2.elastic_modulus ∧
    (0 < (2 : ℝ) ∧
      (2 : ℝ) ^ 3 -
        ((2 - 8 * (wireC2.cross_section * wireC2.elastic_modulus) *
            (wireC2.weight * 1 ^ 2 / (8 * 2)) ^ 2 / (3 * 1 ^ 2) -
          (wireC2.cross_section * wireC2.elastic_modulus) *
            wireC2.thermal_expansion * (0 - 0) : ℚ) : ℝ) * 2 ^ 2 -
        ((wireC2.cross_section * wireC2.elastic_modulus * wireC2.weight ^ 2 *
            1 ^ 2 / 24 : ℚ) : ℝ) = 0) :=
  ⟨by norm_num [wireC2], by norm_num, by norm_num, by norm_num [wireC2],
    by norm_num [wireC2],
    tension_satisfies_cubic wireC2 1 2 0 0 (1 / 2) 2 (by norm_num [wireC2])
      (by norm_num) (by norm_num) (by norm_num [wireC2]) (by norm_num [wireC2])
      calcTempC2⟩

/-- C6: under the positivity preconditions actually checked by the code, if
the dip cubic or the tension cubic has no positive real root, every possible
outcome of the temperature-adjusted computation is the distinguished
`numericalDivergence` failure — never a partial or defaulted `(dip, tension)`
result. -/
theorem no_positive_root_diverges (w : Wire) (span tension t t0 : ℚ)
    (hw : 0 < w.weight) (hs : 0 < span) (ht : 0 < tension)
    (hroot :
      (∀ d : ℝ, ¬ DipRoot w span tension t t0 (w.weight * span ^ 2 / (8 * tension)) d) ∨
      (∀ x : ℝ, ¬ TensRoot w span tension t t0 (w.weight * span ^ 2 / (8 * tension)) x))
    (out : Except CalcError (ℝ × ℝ)) (h : CalcTemp w span tension t t0 out) :
    out = .error .numericalDivergence := by
  cases h with
  | invalid hg =>
    refine absurd hg ?_
    push_neg
    exact ⟨hw, hs, ht⟩
  | ok dip0 hg hdip0 hD hT =>
    rw [dip_calc_pos w span tension hw hs ht] at hdip0
    injection hdip0 with h0
    subst h0
    rcases hroot with hr | hr
    · exact absurd hD (hr _)
    · exact absurd hT (hr _)
  | noDipRoot dip0 hg hdip0 hnd => rfl
  | noTensRoot dip0 hg hdip0 hD hnt => rfl

/-- A wire with negative elastic modulus passing the guard (only weight, span
and tension are checked), whose dip cubic `d³ + d/8 + 3/8 = 0` has no
positive real root. -/
def wireC6 : Wire :=
  { type := "", name := "", cross_section := 1, diameter := 0, weight := 8,
    resistance := 0, temp_coef := 0, breaking_strength := 0, safety_factor := 0,
    elastic_modulus := -1, thermal_expansion := 1 }

lemma noDipRootC6 : ∀ d : ℝ, ¬ DipRoot wireC6 1 1 (-4) 0 1 d := by
  intro d hD
  obtain ⟨hd, heq⟩ := hD
  rw [show d_arg2 wireC6 1 1 (-4) 0 1 = 1 / 8 from by norm_num [d_arg2, wireC6],
    show d_arg3 wireC6 1 = -(3 / 8) from by norm_num [d_arg3, wireC6]] at heq
  push_cast at heq
  nlinarith [pow_pos hd 3, hd]

lemma calcTempC6 : CalcTemp wireC6 1 1 (-4) 0 (.error .numericalDivergence) := by
  refine CalcTemp.noDipRoot 1 ?_ ?_ noDipRootC6
  · norm_num [wireC6]
  · rw [dip_calc_pos wireC6 1 1 (by norm_num [wireC6]) one_pos one_pos]
    norm_num [wireC6]

theorem no_positive_root_diverges_witness :
    0 < wireC6.weight ∧ (0 : ℚ) < 1 ∧
    (∀ d : ℝ,
      ¬ DipRoot wireC6 1 1 (-4) 0 (wireC6.weight * 1 ^ 2 / (8 * 1)) d) ∧
    CalcTemp wireC6 1 1 (-4) 0 (.error .numericalDivergence) ∧
    (Except.error CalcError.numericalDivergence : Except CalcError (ℝ × ℝ)) =
      .error .numericalDivergence :=
  ⟨by norm_num [wireC6], by norm_num,
    by
      rw [show (wireC6.weight * 1 ^ 2 / (8 * 1) : ℚ) = 1 from by norm_num [wireC6]]
      exact noDipRootC6,
    calcTempC6,
    no_positive_root_diverges wireC6 1 1 (-4) 0 (by norm_num [wireC6]) (by norm_num)
      (by norm_num)
      (Or.inl (by
        rw [show (wireC6.weight * 1 ^ 2 / (8 * 1) : ℚ) = 1 from by norm_num [wireC6]]
        exact noDipRootC6))
      (.error .numericalDivergence) calcTempC6⟩

/-- C8: with weight, span, reference tension, cross-section and elastic
modulus positive, a strictly positive thermal-expansion coefficient and a
target temperature strictly above the reference temperature, any dip returned
by a normal temperature-adjusted run strictly exceeds the
reference-temperature dip `dip0 = weight·span²/(8·tension)`. -/
theorem dip_increases_with_temperature (w : Wire) (span tension t t0 : ℚ)
    (d T' : ℝ)
    (hw : 0 < w.weight) (hs : 0 < span) (ht : 0 < tension)
    (hcs : 0 < w.cross_section) (hem : 0 < w.elastic_modulus)
    (hα : 0 < w.thermal_expansion) (htemp : t0 < t)
    (h : CalcTemp w span tension t t0 (.ok (d, T'))) :
    ((w.weight * span ^ 2 / (8 * tension) : ℚ) : ℝ) < d := by
  obtain ⟨hD, -⟩ := calcTemp_ok_inv w span tension t t0 d T' hw hs ht h
  obtain ⟨hdpos, heq⟩ := hD
  set dip0 : ℚ := w.weight * span ^ 2 / (8 * tension) with hdip0def
  have hdip0pos : 0 < dip0 := by rw [hdip0def]; positivity
  have hb3 : 0 < d_arg3 w span := by unfold d_arg3; positivity
  have hkey : dip0 ^ 3 + d_arg2 w span tension t t0 dip0 * dip0 - d_arg3 w span =
      -(3 * span ^ 2 * w.thermal_expansion * (t - t0) / 8 * dip0) := by
    rw [hdip0def]
    unfold d_arg2 d_arg3
    field_simp
    ring
  have hkeyneg :
      dip0 ^ 3 + d_arg2 w span tension t t0 dip0 * dip0 - d_arg3 w span < 0 := by
    rw [hkey]
    have hpos : 0 < 3 * span ^ 2 * w.thermal_expansion * (t - t0) / 8 * dip0 := by
      have hts : 0 < t - t0 := by linarith
      positivity
    linarith
  set A : ℝ := (d_arg2 w span tension t t0 dip0 : ℝ) with hA
  set B : ℝ := (d_arg3 w span : ℝ) with hB
  set p : ℝ := ((dip0 : ℚ) : ℝ) with hp
  have hppos : 0 < p := by rw [hp]; exact_mod_cast hdip0pos
  have hBpos : 0 < B := by rw [hB]; exact_mod_cast hb3
  have hfp : p ^ 3 + A * p - B < 0 := by
    rw [hp, hA, hB]
    exact_mod_cast hkeyneg
  have hprod : 0 < d * (d ^ 2 + A) := by
    have hpr : d * (d ^ 2 + A) = B := by linear_combination heq
    rw [hpr]
    exact hBpos
  have hd2a : 0 < d ^ 2 + A := by
    rcases mul_pos_iff.mp hprod with ⟨-, h2⟩ | ⟨h1, -⟩
    · exact h2
    · exact absurd hdpos (not_lt.mpr h1.le)
  by_contra hcon
  push_neg at hcon
  have hsum : 0 < p ^ 2 + p * d + (d ^ 2 + A) := by
    have hpd := mul_pos hppos hdpos
    nlinarith [sq_nonneg p]
  have hfac : 0 ≤ (p - d) * (p ^ 2 + p * d + (d ^ 2 + A)) :=
    mul_nonneg (by linarith) hsum.le
  have hexp : (p - d) * (p ^ 2 + p * d + (d ^ 2 + A)) =
      (p ^ 3 + A * p - B) - (d ^ 3 + A * d - B) := by ring
  rw [hexp, heq] at hfac
  linarith

/-- A wire (weight `8`, cross-section `1`, modulus `3`, expansion `31/9`)
whose run at `t = 1 > t0 = 0`, tension `1`, has roots `dip = 3/2`,
`tension = 2/3`. -/
def wireC8 : Wire :=
  { type := "", name := "", cross_section := 1, diameter := 0, weight := 8,
    resistance := 0, temp_coef := 0, breaking_strength := 0, safety_factor := 0,
    elastic_modulus := 3, thermal_expansion := 31 / 9 }

lemma calcTempC8 : CalcTemp wireC8 1 1 1 0 (.ok (3 / 2, 2 / 3)) := by
  refine CalcTemp.ok 1 ?_ ?_ ?_ ?_
  · norm_num [wireC8]
  · rw [dip_calc_pos wireC8 1 1 (by norm_num [wireC8]) one_pos one_pos]
    norm_num [wireC8]
  · refine ⟨by norm_num, ?_⟩
    have e2 : d_arg2 wireC8 1 1 1 0 1 = -(13 / 6) := by norm_num [d_arg2, wireC8]
    have e3 : d_arg3 wireC8 1 = 1 / 8 := by norm_num [d_arg3, wireC8]
    rw [e2, e3]
    push_cast
    norm_num
  · refine ⟨by norm_num, ?_⟩
    have e2 : t_arg2 wireC8 1 1 1 0 1 = -(52 / 3) := by norm_num [t_arg2, wireC8]
    have e3 : t_arg3 wireC8 1 = 8 := by norm_num [t_arg3, wireC8]
    rw [e2, e3]
    push_cast
    norm_num

theorem dip_increases_with_temperature_witness :
    0 < wireC8.weight ∧ 0 < wireC8.cross_section ∧ 0 < wireC8.elastic_modulus ∧
    0 < wireC8.thermal_expansion ∧ (0 : ℚ) < 1 ∧
    ((wireC8.weight * 1 ^ 2 / (8 * 1) : ℚ) : ℝ) < 3 / 2 :=
  ⟨by norm_num [wireC8], by norm_num [wireC8], by norm_num [wireC8],
    by norm_num [wireC8], by norm_num,
    dip_increases_with_temperature wireC8 1 1 1 0 (3 / 2) (2 / 3)
      (by norm_num [wireC8]) (by norm_num) (by norm_num) (by norm_num [wireC8])
      (by norm_num [wireC8]) (by norm_num [wireC8]) (by norm_num) calcTempC8⟩
